import Mathlib

/-!
Verification development for the location-based commodity-price resolution
subsystem of the Farmora backend
(`backend/ai_server/tools/commodity_price_tool.py`, plus the nearest-district
loop shared with `backend/ai_server/tools/enhanced_geo_utils.py`).

The Python functions are shallowly embedded as executable Lean definitions:

* scraped rows (Python `dict[str, str]`) become association lists of strings;
* JSON reference files become an explicit `DbState` (absent / unreadable /
  loaded), mirroring the three branches the code takes when opening a file;
* Python exceptions become `Except`/`Option` results;
* `float` coordinates and prices become `ℚ` (the code only compares and
  stores them — no float rounding is observable in the claims considered);
* the haversine distance itself involves transcendental functions, so the
  scan over district entries is parametrised by an arbitrary distance
  function `ℚ × ℚ → ℚ × ℚ → ℚ`; every theorem below holds for all of them;
* the browser-automation adapter (`scrape_commodity`) is, for the engine,
  an arbitrary function returning records or an exception; its resource
  (driver.quit) behaviour is modelled separately by an outcome skeleton.
-/

/-! ### Scraped records (Python `dict[str, str]` rows) -/

/-- A scraped row: string-keyed, string-valued mapping, as produced by the
table parser in `scrape_commodity` (lines 600-623). -/
def Record : Type := List (String × String)

instance : DecidableEq Record := by unfold Record; infer_instance

instance : Membership (String × String) Record := by unfold Record; infer_instance

/-- Python `row.get(k)`: first binding of key `k`, `none` when absent. -/
def rget (r : Record) (k : String) : Option String :=
  List.lookup k r

/-! ### Date parsing (`datetime.strptime(s, "%d %b %Y")`)

`get_latest_prices` sorts by `datetime.strptime(x, '%d %b %Y')` (line 670).
The model parses "day abbreviated-month 4-digit-year" and encodes the date as
`year * 10000 + month * 100 + day`, which is strictly monotone in the
(year, month, day) lexicographic order used by `datetime` comparison.
Month names are matched case-insensitively, as `strptime` does.  Day-in-month
consistency (e.g. rejecting "31 Feb") is not modelled; no claim depends on it.
A failed parse (`none`) models the `ValueError` that `strptime` raises.
All parsing is done on the character list of the string so that every
definition evaluates by kernel reduction. -/

/-- Split a character list at every occurrence of `sep`
(same grouping as Python `str.split(sep)` / `String.splitOn`). -/
def splitChars (sep : Char) : List Char → List (List Char)
  | [] => [[]]
  | c :: rest =>
    let r := splitChars sep rest
    if c = sep then [] :: r
    else
      match r with
      | [] => [[c]]
      | g :: gs => (c :: g) :: gs

/-- Decimal digit-string value (callers check `allDigits` first). -/
def digitsVal (cs : List Char) : ℕ :=
  cs.foldl (fun a c => a * 10 + (c.toNat - 48)) 0

def allDigits (cs : List Char) : Bool :=
  cs.all (·.isDigit)

/-- Parse a non-empty all-digit string as a natural number. -/
def parseNat (cs : List Char) : Option ℕ :=
  if cs ≠ [] ∧ allDigits cs then some (digitsVal cs) else none

/-- ASCII lower-casing of one character. -/
def lowerChar (c : Char) : Char :=
  if 'A' ≤ c ∧ c ≤ 'Z' then Char.ofNat (c.toNat + 32) else c

def monthNum (mo : List Char) : Option ℕ :=
  let m := mo.map lowerChar
  if m = "jan".data then some 1
  else if m = "feb".data then some 2
  else if m = "mar".data then some 3
  else if m = "apr".data then some 4
  else if m = "may".data then some 5
  else if m = "jun".data then some 6
  else if m = "jul".data then some 7
  else if m = "aug".data then some 8
  else if m = "sep".data then some 9
  else if m = "oct".data then some 10
  else if m = "nov".data then some 11
  else if m = "dec".data then some 12
  else none

def parseDate (s : String) : Option ℕ :=
  match splitChars ' ' s.data with
  | [d, mo, y] =>
    match parseNat d, monthNum mo, parseNat y with
    | some dn, some mn, some yn =>
        if 1 ≤ dn ∧ dn ≤ 31 then some (yn * 10000 + mn * 100 + dn) else none
    | _, _, _ => none
  | _ => none

/-- The date string the sort key uses:
`x.get('Price Date', x.get('Reported Date', '01 Jan 2000'))` (line 671). -/
def dateKeyStr (r : Record) : String :=
  ((rget r "Price Date").getD ((rget r "Reported Date").getD "01 Jan 2000"))

/-- Sort key of a record; `none` models `strptime` raising `ValueError`. -/
def dateKey (r : Record) : Option ℕ :=
  parseDate (dateKeyStr r)

/-- Defaulted key, used only on the branch where every key parsed. -/
def keyD (r : Record) : ℕ :=
  (dateKey r).getD 0

/-! ### Python `float(s)` on plain decimal strings

`get_latest_prices` returns `float(latest.get('Min Price', '0'))` etc.
(lines 685-687).  `pyFloat` models CPython `float` on ordinary decimal
literals (optional surrounding ASCII whitespace, optional sign, digits with
at most one decimal point); `none` models the `ValueError` raised on
anything else.  Exponents / inf / nan spellings are not modelled; no claim
uses them. -/

def isPySpace (c : Char) : Bool :=
  c.toNat = 32 ∨ (9 ≤ c.toNat ∧ c.toNat ≤ 13)

def trimChars (l : List Char) : List Char :=
  ((l.dropWhile isPySpace).reverse.dropWhile isPySpace).reverse

def pyFloatCore (t : List Char) : Option ℚ :=
  match splitChars '.' t with
  | [intPart] =>
      if intPart ≠ [] ∧ allDigits intPart then some (digitsVal intPart) else none
  | [intPart, fracPart] =>
      if (intPart ≠ [] ∨ fracPart ≠ []) ∧ allDigits intPart ∧ allDigits fracPart then
        some ((digitsVal intPart : ℚ) + (digitsVal fracPart : ℚ) / (10 ^ fracPart.length))
      else none
  | _ => none

def pyFloat (s : String) : Option ℚ :=
  match trimChars s.data with
  | '-' :: rest => (pyFloatCore rest).map (fun q => -q)
  | '+' :: rest => pyFloatCore rest
  | t => pyFloatCore t

/-! ### Price record selector (`get_latest_prices`, lines 635-690) -/

/-- Insert one record into a list sorted by descending `keyD`, keeping an
equal-key newcomer in front (which makes `sortDateDesc` agree with Python's
stable `sorted(..., reverse=True)`). -/
def insertDesc (x : Record) : List Record → List Record
  | [] => [x]
  | y :: l => if keyD y ≤ keyD x then x :: y :: l else y :: insertDesc x l

/-- Stable descending sort by parsed report date, modelling
`sorted(filtered_data, key=..., reverse=True)` (lines 668-675) on the branch
where every key parses. -/
def sortDateDesc : List Record → List Record
  | [] => []
  | x :: l => insertDesc x (sortDateDesc l)

/-- The variety filter of `get_latest_prices` (lines 657-663): Python's
`if commodity_variety:` skips the filter for a falsy variety, i.e. for
`None` and for the empty string. -/
def varietyFilter (data : List Record) (variety : Option String) : List Record :=
  match variety with
  | some v => if v = "" then data else data.filter (fun r => rget r "Variety" == some v)
  | none => data

/-- The record-selection portion of `get_latest_prices` (lines 653-680):
empty-input check, variety filter (skipped for a falsy — `None` or empty —
variety), then a stable descending sort by parsed date, with the crucial
detail that the `sorted(...)` call sits inside `try/except ValueError`: if
any record's date fails to parse the sort is abandoned and the filtered list
is used in its input order.  Returns the selected record (`sorted_data[0]`),
or `none` for Python's `return {}`. -/
def select_latest (data : List Record) (variety : Option String) : Option Record :=
  if data.isEmpty then none
  else
    let filtered : List Record := varietyFilter data variety
    if filtered.isEmpty then none
    else
      (if filtered.all (fun r => (dateKey r).isSome) then sortDateDesc filtered
       else filtered).head?

theorem mem_insertDesc {x y : Record} {l : List Record} :
    x ∈ insertDesc y l ↔ x = y ∨ x ∈ l := by
  induction l with
  | nil => simp [insertDesc]
  | cons z l ih =>
    by_cases h : keyD z ≤ keyD y
    · simp only [insertDesc, if_pos h, List.mem_cons]
    · simp only [insertDesc, if_neg h, List.mem_cons, ih]
      tauto

theorem mem_sortDateDesc {x : Record} {l : List Record} :
    x ∈ sortDateDesc l ↔ x ∈ l := by
  induction l with
  | nil => simp [sortDateDesc]
  | cons y l ih =>
    simp only [sortDateDesc, mem_insertDesc, List.mem_cons, ih]

theorem insertDesc_ne_nil (x : Record) (l : List Record) : insertDesc x l ≠ [] := by
  cases l with
  | nil => simp [insertDesc]
  | cons y l =>
    by_cases h : keyD y ≤ keyD x
    · simp [insertDesc, h]
    · simp [insertDesc, h]

theorem sortDateDesc_eq_nil_iff {l : List Record} : sortDateDesc l = [] ↔ l = [] := by
  cases l with
  | nil => simp [sortDateDesc]
  | cons x l => simp [sortDateDesc, insertDesc_ne_nil]

/-- A record actually selected by `select_latest` passed the variety filter. -/
theorem select_latest_mem {data : List Record} {v : Option String} {r : Record}
    (h : select_latest data v = some r) : r ∈ varietyFilter data v := by
  unfold select_latest at h
  by_cases h1 : data.isEmpty
  · simp [h1] at h
  · simp only [h1, Bool.false_eq_true, if_false] at h
    by_cases h2 : (varietyFilter data v).isEmpty
    · simp [h2] at h
    · simp only [h2, Bool.false_eq_true, if_false] at h
      by_cases h3 : (varietyFilter data v).all (fun r => (dateKey r).isSome)
      · rw [if_pos h3] at h
        exact mem_sortDateDesc.1 (List.mem_of_mem_head? (by rw [h]; rfl))
      · rw [if_neg h3] at h
        exact List.mem_of_mem_head? (by rw [h]; rfl)

/-- With no variety requested and a non-empty record list, `select_latest`
always selects some record. -/
theorem select_latest_isSome {data : List Record} (h : data ≠ []) :
    (select_latest data none).isSome = true := by
  unfold select_latest varietyFilter
  have h1 : data.isEmpty = false := by
    cases data with
    | nil => exact absurd rfl h
    | cons x l => rfl
  by_cases h3 : data.all (fun r => (dateKey r).isSome)
  · have : sortDateDesc data ≠ [] := fun hnil => h (sortDateDesc_eq_nil_iff.1 hnil)
    simp [h1, h3, List.head?_isSome, this]
  · simp [h1, h3, List.head?_isSome, h]

/-- The dictionary built by `get_latest_prices` on success (lines 683-690). -/
structure LatestDict where
  variety : String
  min_price : ℚ
  max_price : ℚ
  modal_price : ℚ
  date : String
  market : String
deriving DecidableEq, Repr

/-- `get_latest_prices` (lines 635-690): selection via `select_latest`, then
the formatting of the chosen record.  `Except.error` models the uncaught
`ValueError` raised by `float(...)` on a non-numeric price field (the
`try/except` at lines 666-678 only covers the sort); `.ok none` models
`return {}`. -/
def get_latest_prices (data : List Record) (variety : Option String) :
    Except String (Option LatestDict) :=
  match select_latest data variety with
  | none => .ok none
  | some latest =>
    match pyFloat ((rget latest "Min Price").getD "0"),
          pyFloat ((rget latest "Max Price").getD "0"),
          pyFloat ((rget latest "Modal Price").getD "0") with
    | some mn, some mx, some mo =>
        .ok (some ⟨(rget latest "Variety").getD "Unknown", mn, mx, mo,
          (rget latest "Price Date").getD ((rget latest "Reported Date").getD "Unknown"),
          (rget latest "Market Name").getD "Unknown"⟩)
    | _, _, _ => .error "could not convert string to float"

/-- With a non-empty record list and no variety, `get_latest_prices` never
returns the empty dictionary: it either formats a record or raises. -/
theorem get_latest_prices_ne_ok_none {data : List Record} (h : data ≠ []) :
    get_latest_prices data none ≠ .ok none := by
  unfold get_latest_prices
  rcases hsel : select_latest data none with _ | latest
  · have := select_latest_isSome h
    rw [hsel] at this
    simp at this
  · simp only [hsel]
    rcases h1 : pyFloat ((rget latest "Min Price").getD "0") with _ | mn <;>
      rcases h2 : pyFloat ((rget latest "Max Price").getD "0") with _ | mx <;>
      rcases h3 : pyFloat ((rget latest "Modal Price").getD "0") with _ | mo <;>
      simp [h1, h2, h3]

/-- Concrete record with an unparseable report date. -/
def recBadDate : Record :=
  [("Variety", "A"), ("Price Date", "not-a-date"), ("Min Price", "10"),
   ("Max Price", "20"), ("Modal Price", "15"), ("Market Name", "M")]

/-- Concrete record with a valid report date. -/
def recGoodDate : Record :=
  [("Variety", "A"), ("Price Date", "02 Jan 2024"), ("Min Price", "11"),
   ("Max Price", "21"), ("Modal Price", "16"), ("Market Name", "M")]

/-- Concrete record of a different variety with a later valid date. -/
def recBVariety : Record :=
  [("Variety", "B"), ("Price Date", "05 Jan 2024"), ("Min Price", "9"),
   ("Max Price", "19"), ("Modal Price", "14"), ("Market Name", "M")]

/-- **C3, counterexample.**  A record whose `Price Date` is `"not-a-date"`
does not sort after the valid-dated records: placed first, it is itself
selected by `select_latest`, even though a record with the valid date
`"02 Jan 2024"` is present.  So the unparseable-dated record is not treated
as having the oldest possible date. -/
theorem select_latest_unparseable_counterexample :
    select_latest [recBadDate, recGoodDate] none = some recBadDate ∧
    dateKey recBadDate = none ∧ dateKey recGoodDate = some 20240102 := by
  refine ⟨by decide, by decide, by decide⟩

/-- **C3 (corrected).**  `select_latest` indeed never raises on an
unparseable report date (in the model it is a total function), but such a
record is *not* treated as having the oldest possible date: the
`except ValueError` around `sorted(...)` (lines 676-678) abandons the sort
altogether, so the filtered records keep their input order and the first
record in input order is selected — regardless of any valid-dated records
present. -/
theorem select_latest_unparseable_keeps_input_order (data : List Record)
    (h : data ≠ []) (hbad : data.all (fun r => (dateKey r).isSome) = false) :
    select_latest data none = data.head? := by
  have h1 : data.isEmpty = false := by
    cases data with
    | nil => exact absurd rfl h
    | cons x l => rfl
  unfold select_latest varietyFilter
  simp [h1, hbad]

/-- Witness for `select_latest_unparseable_keeps_input_order` at the
concrete two-record input of the counterexample scenario. -/
theorem select_latest_unparseable_keeps_input_order_witness :
    select_latest [recBadDate, recGoodDate] none = [recBadDate, recGoodDate].head? :=
  select_latest_unparseable_keeps_input_order [recBadDate, recGoodDate]
    (by decide) (by decide)

/-- **C4, counterexample.**  For the variety string `""` the filter is
skipped entirely (Python's `if commodity_variety:` is false), so
`select_latest` returns a record of a different variety (`"A"`) although no
record matches the requested variety `""`. -/
theorem select_latest_empty_variety_counterexample :
    select_latest [recGoodDate] (some "") = some recGoodDate ∧
    rget recGoodDate "Variety" = some "A" ∧
    (∀ r ∈ [recGoodDate], ¬ rget r "Variety" = some "") := by
  refine ⟨by decide, by decide, by decide⟩

/-- **C4 (corrected).**  For every *non-empty* variety string `v`,
`select_latest` filters to records whose `Variety` equals `v` exactly: if no
record matches it returns `none` (never falling back to a record of another
variety), and any record it does return has variety `v`.  For the empty
variety string the filter is skipped (see the counterexample). -/
theorem select_latest_variety_filter (data : List Record) (v : String)
    (hv : v ≠ "") :
    ((∀ r ∈ data, ¬ rget r "Variety" = some v) →
        select_latest data (some v) = none) ∧
    (∀ r, select_latest data (some v) = some r → rget r "Variety" = some v) := by
  constructor
  · intro hnone
    have hfil : data.filter (fun r => rget r "Variety" == some v) = [] := by
      rw [List.filter_eq_nil_iff]
      intro a ha
      simp [hnone a ha]
    unfold select_latest varietyFilter
    by_cases h1 : data.isEmpty
    · simp [h1]
    · simp [h1, hv, hfil]
  · intro r hr
    have hmem := select_latest_mem hr
    simp only [varietyFilter] at hmem
    rw [if_neg hv] at hmem
    have := (List.mem_filter.1 hmem).2
    simpa using this

/-- Witness for `select_latest_variety_filter` at a concrete input: variety
`"C"` matches nothing among an `"A"` and a `"B"` record. -/
theorem select_latest_variety_filter_witness :
    ((∀ r ∈ [recGoodDate, recBVariety], ¬ rget r "Variety" = some "C") →
        select_latest [recGoodDate, recBVariety] (some "C") = none) ∧
    (∀ r, select_latest [recGoodDate, recBVariety] (some "C") = some r →
        rget r "Variety" = some "C") :=
  select_latest_variety_filter [recGoodDate, recBVariety] "C" (by decide)

/-! ### Reference datasets and the nearest-district scan
(`find_nearest_location`, lines 71-117, and the identical loop in
`enhanced_geo_utils.get_state_from_coordinates`, lines 61-103) -/

/-- State of a JSON reference file as seen by the loading code: the file may
be missing (`os.path.exists` false), unreadable (`json.JSONDecodeError` /
`FileNotFoundError` caught), or loaded as a list of entries. -/
inductive DbState (α : Type)
  | absent
  | unreadable
  | loaded (data : List α)

/-- One entry of `districts_database.json` as the code reads it: every field
is accessed with `.get(...)`, so every field may be absent. -/
structure DistrictEntry where
  state : Option String
  district : Option String
  latitude : Option ℚ
  longitude : Option ℚ
deriving DecidableEq, Repr

/-- The guard `if not (dist_lat and dist_lon): continue` (line 101): an entry
takes part in the scan only when both coordinates are present *and truthy*
(Python treats the number `0` as falsy). -/
def coordOk (e : DistrictEntry) : Bool :=
  match e.latitude, e.longitude with
  | some a, some b => decide (a ≠ 0 ∧ b ≠ 0)
  | _, _ => false

/-- The linear scan of lines 94-108: `min_distance` starts at infinity
(modelled by the `none` accumulator) and the running best is replaced only
on a strictly smaller distance (`if distance < min_distance`). -/
def scanNearest (d : DistrictEntry → ℚ) :
    List DistrictEntry → Option (DistrictEntry × ℚ) → Option (DistrictEntry × ℚ)
  | [], acc => acc
  | e :: rest, acc =>
    if coordOk e then
      match acc with
      | none => scanNearest d rest (some (e, d e))
      | some (b, m) =>
        if d e < m then scanNearest d rest (some (e, d e))
        else scanNearest d rest (some (b, m))
    else scanNearest d rest acc

/-- Distance from the query point to an entry, as the code computes it:
`haversine_distance((lat, lon), (dist_lat, dist_lon))` (line 104).  The
haversine function itself is transcendental, so it is an arbitrary parameter
`distFn`; every theorem holds for all of them. -/
def entryDist (distFn : ℚ × ℚ → ℚ × ℚ → ℚ) (lat lon : ℚ) (e : DistrictEntry) : ℚ :=
  distFn (lat, lon) (e.latitude.getD 0, e.longitude.getD 0)

/-- Result dictionary of `find_nearest_location`. -/
structure LocationResult where
  state : String
  district : String
  distance : ℚ
deriving DecidableEq, Repr

/-- `find_nearest_location` (lines 71-117): missing or unreadable database
degrades to the Punjab/Ludhiana default; otherwise the linear scan runs and
the winner's fields are read with `Punjab`/`Ludhiana` defaults. -/
def find_nearest_location (distFn : ℚ × ℚ → ℚ × ℚ → ℚ)
    (db : DbState DistrictEntry) (lat lon : ℚ) : LocationResult :=
  match db with
  | .absent => ⟨"Punjab", "Ludhiana", 0⟩
  | .unreadable => ⟨"Punjab", "Ludhiana", 0⟩
  | .loaded districts_data =>
    match scanNearest (entryDist distFn lat lon) districts_data none with
    | some (e, m) => ⟨(e.state).getD "Punjab", (e.district).getD "Ludhiana", m⟩
    | none => ⟨"Punjab", "Ludhiana", 0⟩

/-- `enhanced_geo_utils.get_state_from_coordinates` (lines 61-103): the same
scan, returning only the state with the `"Punjab"` default. -/
def get_state_from_coordinates (distFn : ℚ × ℚ → ℚ × ℚ → ℚ)
    (db : DbState DistrictEntry) (lat lon : ℚ) : String :=
  match db with
  | .absent => "Punjab"
  | .unreadable => "Punjab"
  | .loaded districts_data =>
    match scanNearest (entryDist distFn lat lon) districts_data none with
    | some (e, _) => (e.state).getD "Punjab"
    | none => "Punjab"

theorem scanNearest_isSome (d : DistrictEntry → ℚ) (l : List DistrictEntry)
    (p : DistrictEntry × ℚ) : (scanNearest d l (some p)).isSome = true := by
  induction l generalizing p with
  | nil => rfl
  | cons e rest ih =>
    by_cases hc : coordOk e
    · obtain ⟨b, m⟩ := p
      by_cases hlt : d e < m
      · simpa [scanNearest, hc, hlt] using ih (e, d e)
      · simpa [scanNearest, hc, hlt] using ih (b, m)
    · simpa [scanNearest, hc] using ih p

theorem scanNearest_none_iff (d : DistrictEntry → ℚ) (l : List DistrictEntry) :
    scanNearest d l none = none ↔ ∀ e ∈ l, coordOk e = false := by
  induction l with
  | nil => simp [scanNearest]
  | cons e rest ih =>
    by_cases hc : coordOk e
    · have h1 := scanNearest_isSome d rest (e, d e)
      constructor
      · intro h
        rw [show scanNearest d (e :: rest) none
              = scanNearest d rest (some (e, d e)) by simp [scanNearest, hc]] at h
        rw [h] at h1
        simp at h1
      · intro h
        exact absurd (h e (by simp)) (by simp [hc])
    · constructor
      · intro h x hx
        rcases List.mem_cons.1 hx with rfl | hx
        · simpa using hc
        · exact (ih.1 (by simpa [scanNearest, hc] using h)) x hx
      · intro h
        have : scanNearest d (e :: rest) none = scanNearest d rest none := by
          simp [scanNearest, hc]
        rw [this]
        exact ih.2 (fun x hx => h x (List.mem_cons_of_mem _ hx))

/-- Characterisation of the scan with a running best `(b, m)`: either the
initial best survives (everything usable in the remainder is at distance at
least `m`), or the result is a usable entry of the list at a strictly
smaller distance, the *first* entry attaining the final minimum (usable
entries before it are strictly farther, usable entries after it no closer). -/
theorem scanNearest_acc_spec (d : DistrictEntry → ℚ) (l : List DistrictEntry) :
    ∀ (b : DistrictEntry) (m : ℚ) (e : DistrictEntry) (m' : ℚ),
    scanNearest d l (some (b, m)) = some (e, m') →
    (e = b ∧ m' = m ∧ ∀ x ∈ l, coordOk x = true → m ≤ d x) ∨
    (d e = m' ∧ m' < m ∧ coordOk e = true ∧
      ∃ l₁ l₂, l = l₁ ++ e :: l₂ ∧
        (∀ x ∈ l₁, coordOk x = true → m' < d x) ∧
        (∀ x ∈ l₂, coordOk x = true → m' ≤ d x)) := by
  induction l with
  | nil =>
    intro b m e m' h
    simp only [scanNearest, Option.some.injEq, Prod.mk.injEq] at h
    obtain ⟨rfl, rfl⟩ := h
    exact Or.inl ⟨rfl, rfl, by simp⟩
  | cons x rest ih =>
    intro b m e m' h
    by_cases hx : coordOk x
    · by_cases hlt : d x < m
      · rw [show scanNearest d (x :: rest) (some (b, m))
              = scanNearest d rest (some (x, d x)) by simp [scanNearest, hx, hlt]] at h
        rcases ih x (d x) e m' h with ⟨rfl, rfl, hall⟩ | ⟨hde, hlt2, hok, l₁, l₂, hsplit, h₁, h₂⟩
        · exact Or.inr ⟨rfl, hlt, hx, [], rest, by simp, by simp, hall⟩
        · refine Or.inr ⟨hde, lt_trans hlt2 hlt, hok, x :: l₁, l₂, by rw [hsplit]; rfl, ?_, h₂⟩
          intro y hy hyok
          rcases List.mem_cons.1 hy with rfl | hy
          · exact hlt2
          · exact h₁ y hy hyok
      · rw [show scanNearest d (x :: rest) (some (b, m))
              = scanNearest d rest (some (b, m)) by simp [scanNearest, hx, hlt]] at h
        rcases ih b m e m' h with ⟨rfl, rfl, hall⟩ | ⟨hde, hlt2, hok, l₁, l₂, hsplit, h₁, h₂⟩
        · refine Or.inl ⟨rfl, rfl, ?_⟩
          intro y hy hyok
          rcases List.mem_cons.1 hy with rfl | hy
          · exact not_lt.1 hlt
          · exact hall y hy hyok
        · refine Or.inr ⟨hde, hlt2, hok, x :: l₁, l₂, by rw [hsplit]; rfl, ?_, h₂⟩
          intro y hy hyok
          rcases List.mem_cons.1 hy with rfl | hy
          · exact lt_of_lt_of_le hlt2 (not_lt.1 hlt)
          · exact h₁ y hy hyok
    · rw [show scanNearest d (x :: rest) (some (b, m))
            = scanNearest d rest (some (b, m)) by simp [scanNearest, hx]] at h
      rcases ih b m e m' h with ⟨rfl, rfl, hall⟩ | ⟨hde, hlt2, hok, l₁, l₂, hsplit, h₁, h₂⟩
      · refine Or.inl ⟨rfl, rfl, ?_⟩
        intro y hy hyok
        rcases List.mem_cons.1 hy with rfl | hy
        · exact absurd hyok (by simp [hx])
        · exact hall y hy hyok
      · refine Or.inr ⟨hde, hlt2, hok, x :: l₁, l₂, by rw [hsplit]; rfl, ?_, h₂⟩
        intro y hy hyok
        rcases List.mem_cons.1 hy with rfl | hy
        · exact absurd hyok (by simp [hx])
        · exact h₁ y hy hyok

/-- Characterisation of the full scan (empty initial best): a `some` result
is the first usable entry attaining the minimal distance. -/
theorem scanNearest_some_spec (d : DistrictEntry → ℚ) (l : List DistrictEntry) :
    ∀ (e : DistrictEntry) (m' : ℚ),
    scanNearest d l none = some (e, m') →
    d e = m' ∧ coordOk e = true ∧
      ∃ l₁ l₂, l = l₁ ++ e :: l₂ ∧
        (∀ x ∈ l₁, coordOk x = true → m' < d x) ∧
        (∀ x ∈ l₂, coordOk x = true → m' ≤ d x) := by
  induction l with
  | nil => intro e m' h; simp [scanNearest] at h
  | cons x rest ih =>
    intro e m' h
    by_cases hx : coordOk x
    · rw [show scanNearest d (x :: rest) none
            = scanNearest d rest (some (x, d x)) by simp [scanNearest, hx]] at h
      rcases scanNearest_acc_spec d rest x (d x) e m' h with
        ⟨rfl, rfl, hall⟩ | ⟨hde, hlt2, hok, l₁, l₂, hsplit, h₁, h₂⟩
      · exact ⟨rfl, hx, [], rest, by simp, by simp, hall⟩
      · refine ⟨hde, hok, x :: l₁, l₂, by rw [hsplit]; rfl, ?_, h₂⟩
        intro y hy hyok
        rcases List.mem_cons.1 hy with rfl | hy
        · exact hlt2
        · exact h₁ y hy hyok
    · rw [show scanNearest d (x :: rest) none
            = scanNearest d rest none by simp [scanNearest, hx]] at h
      obtain ⟨hde, hok, l₁, l₂, hsplit, h₁, h₂⟩ := ih e m' h
      refine ⟨hde, hok, x :: l₁, l₂, by rw [hsplit]; rfl, ?_, h₂⟩
      intro y hy hyok
      rcases List.mem_cons.1 hy with rfl | hy
      · exact absurd hyok (by simp [hx])
      · exact h₁ y hy hyok

/-- **C5 (confirmed).**  For every coordinate pair and every distance
function, when the districts reference dataset is absent, unreadable, or
empty, `find_nearest_location` returns the hardcoded
`state="Punjab", district="Ludhiana"` default (with distance 0) — being a
total function, it never raises. -/
theorem find_nearest_location_default (distFn : ℚ × ℚ → ℚ × ℚ → ℚ) (lat lon : ℚ) :
    find_nearest_location distFn .absent lat lon = ⟨"Punjab", "Ludhiana", 0⟩ ∧
    find_nearest_location distFn .unreadable lat lon = ⟨"Punjab", "Ludhiana", 0⟩ ∧
    find_nearest_location distFn (.loaded []) lat lon = ⟨"Punjab", "Ludhiana", 0⟩ :=
  ⟨rfl, rfl, rfl⟩

/-- **C6 (confirmed).**  The nearest-district search is a linear scan whose
running best is replaced only on a strictly smaller distance, for *every*
distance function: a `none` scan result (hence the Punjab/Ludhiana default)
occurs exactly when every entry lacks usable coordinates, and a selected
entry is the *first* entry of the input attaining the minimal distance —
usable entries before it are strictly farther, usable entries after it are
no closer (so ties keep the first-encountered entry). -/
theorem find_nearest_linear_scan (distFn : ℚ × ℚ → ℚ × ℚ → ℚ) (lat lon : ℚ)
    (data : List DistrictEntry) :
    (scanNearest (entryDist distFn lat lon) data none = none ↔
        ∀ e ∈ data, coordOk e = false) ∧
    (scanNearest (entryDist distFn lat lon) data none = none →
        find_nearest_location distFn (.loaded data) lat lon = ⟨"Punjab", "Ludhiana", 0⟩) ∧
    (∀ e m, scanNearest (entryDist distFn lat lon) data none = some (e, m) →
        coordOk e = true ∧ entryDist distFn lat lon e = m ∧
        find_nearest_location distFn (.loaded data) lat lon =
          ⟨(e.state).getD "Punjab", (e.district).getD "Ludhiana", m⟩ ∧
        ∃ l₁ l₂, data = l₁ ++ e :: l₂ ∧
          (∀ x ∈ l₁, coordOk x = true → m < entryDist distFn lat lon x) ∧
          (∀ x ∈ l₂, coordOk x = true → m ≤ entryDist distFn lat lon x)) := by
  refine ⟨scanNearest_none_iff _ _, ?_, ?_⟩
  · intro h
    simp [find_nearest_location, h]
  · intro e m h
    obtain ⟨hde, hok, l₁, l₂, hsplit, h₁, h₂⟩ := scanNearest_some_spec _ data e m h
    exact ⟨hok, hde, by simp [find_nearest_location, h], l₁, l₂, hsplit, h₁, h₂⟩

/-- A distance function that reads off the candidate's latitude; used to
build concrete tie scenarios in witnesses. -/
def distLat : ℚ × ℚ → ℚ × ℚ → ℚ := fun _ p => p.1

def entryNoCoord : DistrictEntry := ⟨some "S0", some "D0", none, some 1⟩

def entryTieA : DistrictEntry := ⟨some "Punjab", some "Amritsar", some 5, some 1⟩

def entryTieB : DistrictEntry := ⟨some "Punjab", some "Patiala", some 5, some 2⟩

def entryFar : DistrictEntry := ⟨some "Haryana", some "Karnal", some 7, some 3⟩

def tieData : List DistrictEntry := [entryNoCoord, entryTieA, entryTieB, entryFar]

/-- Witness for `find_nearest_linear_scan` on a concrete dataset with a
distance tie: the scan selects `entryTieA`, the first of the two entries at
the minimal distance 5, and skips the coordinate-less first entry. -/
theorem find_nearest_linear_scan_witness :
    scanNearest (entryDist distLat 0 0) tieData none = some (entryTieA, 5) ∧
    ((scanNearest (entryDist distLat 0 0) tieData none = none ↔
        ∀ e ∈ tieData, coordOk e = false) ∧
    (scanNearest (entryDist distLat 0 0) tieData none = none →
        find_nearest_location distLat (.loaded tieData) 0 0 = ⟨"Punjab", "Ludhiana", 0⟩) ∧
    (∀ e m, scanNearest (entryDist distLat 0 0) tieData none = some (e, m) →
        coordOk e = true ∧ entryDist distLat 0 0 e = m ∧
        find_nearest_location distLat (.loaded tieData) 0 0 =
          ⟨(e.state).getD "Punjab", (e.district).getD "Ludhiana", m⟩ ∧
        ∃ l₁ l₂, tieData = l₁ ++ e :: l₂ ∧
          (∀ x ∈ l₁, coordOk x = true → m < entryDist distLat 0 0 x) ∧
          (∀ x ∈ l₂, coordOk x = true → m ≤ entryDist distLat 0 0 x))) :=
  ⟨by decide, find_nearest_linear_scan distLat 0 0 tieData⟩

/-- **C9 (confirmed, implicit).**  An entry whose latitude or longitude is
missing or exactly `0` (falsy in Python) is skipped by the scan and can
never be selected, whatever the distance function says; when every entry is
skipped, `find_nearest_location` returns the Punjab/Ludhiana default and
`get_state_from_coordinates` returns `"Punjab"`. -/
theorem coordless_entries_never_selected (distFn : ℚ × ℚ → ℚ × ℚ → ℚ) (lat lon : ℚ)
    (data : List DistrictEntry) :
    (∀ e m, scanNearest (entryDist distFn lat lon) data none = some (e, m) →
        coordOk e = true) ∧
    ((∀ e ∈ data, coordOk e = false) →
        find_nearest_location distFn (.loaded data) lat lon = ⟨"Punjab", "Ludhiana", 0⟩ ∧
        get_state_from_coordinates distFn (.loaded data) lat lon = "Punjab") := by
  constructor
  · intro e m h
    exact (scanNearest_some_spec _ data e m h).2.1
  · intro h
    have hn := (scanNearest_none_iff (entryDist distFn lat lon) data).2 h
    constructor
    · simp [find_nearest_location, hn]
    · simp [get_state_from_coordinates, hn]

/-- Dataset in which every entry is skipped: one has latitude exactly `0`
(falsy), the other has no latitude at all. -/
def skippedData : List DistrictEntry :=
  [⟨some "Punjab", some "Amritsar", some 0, some 75⟩,
   ⟨some "Punjab", some "Patiala", none, some 76⟩]

/-- Witness for `coordless_entries_never_selected` on a concrete dataset
whose entries are all skipped (zero latitude / missing latitude). -/
theorem coordless_entries_never_selected_witness :
    (∀ e ∈ skippedData, coordOk e = false) ∧
    ((∀ e m, scanNearest (entryDist distLat 0 0) skippedData none = some (e, m) →
        coordOk e = true) ∧
    ((∀ e ∈ skippedData, coordOk e = false) →
        find_nearest_location distLat (.loaded skippedData) 0 0 = ⟨"Punjab", "Ludhiana", 0⟩ ∧
        get_state_from_coordinates distLat (.loaded skippedData) 0 0 = "Punjab")) :=
  ⟨by decide, coordless_entries_never_selected distLat 0 0 skippedData⟩

/-! ### Market lookup (`get_markets_in_district`, lines 119-148, and
`get_alternate_markets`, lines 150-193) -/

/-- One entry of `markets_database.json`; every field is read with
`.get(...)`, so every field may be absent — in particular the collected
market name is `Option String` exactly as in the code, where
`market_entry.get("market")` may put `None` into the returned list. -/
structure MarketEntry where
  state : Option String
  district : Option String
  market : Option String
deriving DecidableEq, Repr

/-- `get_markets_in_district` (lines 119-148): a missing or unreadable
markets file yields the default `["Ludhiana"]`; otherwise the entries
matching `(state, district)` contribute their `market` field, and an empty
match list again yields `["Ludhiana"]`. -/
def get_markets_in_district (db : DbState MarketEntry) (state district : String) :
    List (Option String) :=
  match db with
  | .absent => [some "Ludhiana"]
  | .unreadable => [some "Ludhiana"]
  | .loaded markets_data =>
    let district_markets := (markets_data.filter
      (fun e => e.state == some state && e.district == some district)).map (·.market)
    if district_markets.isEmpty then [some "Ludhiana"] else district_markets

/-- `get_alternate_markets` (lines 150-193): the hardcoded per-state table
of major markets (district, market), with the state-independent default
`[("Ludhiana", "Ludhiana")]` for any state not among its four keys. -/
def get_alternate_markets (state : String) : List (String × String) :=
  if state = "Punjab" then
    [("Ludhiana", "Ludhiana"), ("Amritsar", "Amritsar"), ("Patiala", "Patiala"),
     ("Jalandhar", "Jalandhar"), ("Bathinda", "Bathinda")]
  else if state = "Haryana" then
    [("Karnal", "Karnal"), ("Ambala", "Ambala"), ("Hisar", "Hisar"),
     ("Gurugram", "Gurugram"), ("Kurukshetra", "Kurukshetra")]
  else if state = "Uttar Pradesh" then
    [("Lucknow", "Lucknow"), ("Kanpur", "Kanpur"), ("Varanasi", "Varanasi"),
     ("Agra", "Agra"), ("Meerut", "Meerut")]
  else if state = "Himachal Pradesh" then
    [("Shimla", "Shimla"), ("Solan", "Solan"), ("Kangra", "Dharamshala"),
     ("Kullu", "Kullu"), ("Mandi", "Mandi")]
  else [("Ludhiana", "Ludhiana")]

/-- A markets database containing only a Punjab/Ludhiana row. -/
def onlyPunjabDb : List MarketEntry :=
  [⟨some "Punjab", some "Ludhiana", some "Ludhiana"⟩]

/-- **C7, counterexample.**  For `(state, district)` pairs with no matching
rows, the market lookup returns the same state-independent default
`["Ludhiana"]` for both Haryana and Himachal Pradesh, and `"Ludhiana"` is
not even a member of Haryana's Major Market Table — so the lookup does *not*
fall back to the per-state list of major markets. -/
theorem get_markets_in_district_counterexample :
    get_markets_in_district (.loaded onlyPunjabDb) "Haryana" "Karnal" = [some "Ludhiana"] ∧
    get_markets_in_district (.loaded onlyPunjabDb) "Himachal Pradesh" "Solan"
      = [some "Ludhiana"] ∧
    (get_alternate_markets "Haryana").map Prod.snd
      = ["Karnal", "Ambala", "Hisar", "Gurugram", "Kurukshetra"] ∧
    ¬ "Ludhiana" ∈ (get_alternate_markets "Haryana").map Prod.snd := by
  refine ⟨by decide, by decide, by decide, by decide⟩

/-- **C7 (corrected).**  When the markets reference data contains no row
matching `(state, district)`, `get_markets_in_district` falls back to the
fixed, state-independent default list `["Ludhiana"]`.  The hardcoded
per-state Major Market Table (`get_alternate_markets`) is consulted only
later, by the fallback engine, after every district market has yielded no
data — and for a state outside its four enumerated keys it too returns the
state-independent `[("Ludhiana", "Ludhiana")]` default. -/
theorem get_markets_in_district_no_match_default (data : List MarketEntry)
    (state district : String)
    (h : ∀ e ∈ data, ¬ (e.state = some state ∧ e.district = some district)) :
    get_markets_in_district (.loaded data) state district = [some "Ludhiana"] := by
  have hfil : data.filter
      (fun e => e.state == some state && e.district == some district) = [] := by
    rw [List.filter_eq_nil_iff]
    intro a ha
    have := h a ha
    simp only [Bool.and_eq_true, beq_iff_eq]
    tauto
  simp [get_markets_in_district, hfil]

/-- Witness for `get_markets_in_district_no_match_default`: the concrete
one-row Punjab database has no Haryana/Karnal row. -/
theorem get_markets_in_district_no_match_default_witness :
    get_markets_in_district (.loaded onlyPunjabDb) "Haryana" "Karnal" = [some "Ludhiana"] :=
  get_markets_in_district_no_match_default onlyPunjabDb "Haryana" "Karnal" (by decide)

/-! ### Fallback engine (`get_commodity_price`, lines 725-873)

The scrape adapter is an arbitrary function `FetchFn`; a call is identified
by its `(state, district, market)` arguments (the commodity and the dates
are fixed within one engine run).  The engine is given together with the
list of fetch calls it actually performs, so that the short-circuit claim is
about an observable trace. -/

/-- One adapter invocation: state, district, market (the market slot is
`Option String` because `get_markets_in_district` can yield `None` entries). -/
abbrev FetchCall := String × String × Option String

/-- The adapter: `scrape_commodity(state, district, market, commodity, ...)`
returning rows or raising. -/
abbrev FetchFn := String → String → Option String → String → Except String (List Record)

/-- Python truthiness of the `successful_market` value: `None` and `""` are
falsy (`if successful_market and market_data:` at line 852). -/
def pyTruthy : Option String → Bool
  | none => false
  | some s => !(s == "")

/-- The candidate loop of lines 782-807 (and 816-849): try candidates in
order, stop at the first whose fetch yields a non-empty record list; record
the candidates actually fetched.  An exception or an empty result falls
through to the next candidate. -/
def firstSuccessTrace {α : Type} (f : α → Except String (List Record)) :
    List α → List α × Option (α × List Record)
  | [] => ([], none)
  | c :: rest =>
    match f c with
    | .ok data =>
      if data.isEmpty then
        ((c :: (firstSuccessTrace f rest).1), (firstSuccessTrace f rest).2)
      else ([c], some (c, data))
    | .error _ =>
      ((c :: (firstSuccessTrace f rest).1), (firstSuccessTrace f rest).2)

/-- The result dictionary of `get_commodity_price` (lines 744-750): fields
start as `None`/`{}`/`0`; `error` is only ever added, never cleared. -/
structure PriceResult where
  state : Option String
  district : Option String
  market : Option String
  latest_prices : Option LatestDict
  data_points : ℕ
  error : Option String
deriving DecidableEq, Repr

def noDataMsg (commodity state : String) : String :=
  "No price data found for " ++ commodity ++ " in any market in " ++ state

/-- Steps 4 of the engine (lines 851-873): `if successful_market and
market_data:` guards the success branch; inside it `get_latest_prices` may
raise, which the outer `except` turns into `error` — after `market` and
`data_points` have already been set.  The else branch reports the
no-data error.  `succMkt = none` models `successful_market` still `None`. -/
def finalize (state district commodity : String) (succMkt : Option (Option String))
    (data : List Record) : PriceResult :=
  if (match succMkt with | some m => pyTruthy m | none => false) && !data.isEmpty then
    match get_latest_prices data none with
    | .ok lp => ⟨some state, some district, succMkt.getD none, lp, data.length, none⟩
    | .error msg =>
        ⟨some state, some district, succMkt.getD none, none, data.length, some msg⟩
  else
    ⟨some state, some district, none, none, 0, some (noDataMsg commodity state)⟩

/-- The candidate phases of the engine, after the location and the district
market list are known: phase 1 tries the district markets (lines 782-807);
if none succeeds, phase 2 tries the alternate per-state markets, skipping
an alternate already tried (`if alt_district == district and alt_market in
markets: continue`, line 821); a phase-2 success overrides the district
(line 841). -/
def engineCore (f : FetchFn) (state district commodity : String)
    (markets : List (Option String)) : PriceResult × List FetchCall :=
  match firstSuccessTrace (fun m => f state district m commodity) markets with
  | (tr1, some md) =>
    (finalize state district commodity (some md.1) md.2,
     tr1.map (fun m => (state, district, m)))
  | (tr1, none) =>
    match firstSuccessTrace
        (fun p => f state p.1 (some p.2) commodity)
        ((get_alternate_markets state).filter
          (fun p => !(p.1 == district && markets.contains (some p.2)))) with
    | (tr2, some dm) =>
      (finalize state dm.1.1 commodity (some (some dm.1.2)) dm.2,
       tr1.map (fun m => (state, district, m))
         ++ tr2.map (fun p => (state, p.1, some p.2)))
    | (tr2, none) =>
      (finalize state district commodity none [],
       tr1.map (fun m => (state, district, m))
         ++ tr2.map (fun p => (state, p.1, some p.2)))

/-- Everything `get_commodity_price` depends on besides its arguments: the
two reference databases, the haversine function and the scrape adapter. -/
structure EngineEnv where
  distFn : ℚ × ℚ → ℚ × ℚ → ℚ
  districtsDb : DbState DistrictEntry
  marketsDb : DbState MarketEntry
  fetch : FetchFn

/-- `get_commodity_price` (lines 725-873) together with the trace of adapter
calls it makes: resolve the location, get the district markets (with the
dead-code `if not markets` guard of line 767), then run the candidate
phases. -/
def get_commodity_price_traced (env : EngineEnv) (lat lon : ℚ) (commodity : String) :
    PriceResult × List FetchCall :=
  let loc := find_nearest_location env.distFn env.districtsDb lat lon
  let markets0 := get_markets_in_district env.marketsDb loc.state loc.district
  engineCore env.fetch loc.state loc.district commodity
    (if markets0.isEmpty then [some "Ludhiana"] else markets0)

/-- The result dictionary alone, as the pipeline sees it. -/
def get_commodity_price (env : EngineEnv) (lat lon : ℚ) (commodity : String) :
    PriceResult :=
  (get_commodity_price_traced env lat lon commodity).1

/-- On every branch of `finalize`, the error field is populated exactly when
the latest-prices field is empty. -/
theorem finalize_error_iff (state district commodity : String)
    (succMkt : Option (Option String)) (data : List Record) :
    ((finalize state district commodity succMkt data).error.isSome = true ↔
      (finalize state district commodity succMkt data).latest_prices = none) := by
  unfold finalize
  by_cases hc : ((match succMkt with | some m => pyTruthy m | none => false)
      && !data.isEmpty) = true
  · rw [if_pos hc]
    have hne : data ≠ [] := by
      intro hnil
      subst hnil
      simp at hc
    rcases hglp : get_latest_prices data none with msg | lp
    · simp [hglp]
    · have hlp : lp ≠ none := by
        intro h0
        subst h0
        exact get_latest_prices_ne_ok_none hne hglp
      simp [hglp, hlp]
  · rw [if_neg hc]
    simp

theorem engineCore_error_iff (f : FetchFn) (state district commodity : String)
    (markets : List (Option String)) :
    ((engineCore f state district commodity markets).1.error.isSome = true ↔
      (engineCore f state district commodity markets).1.latest_prices = none) := by
  unfold engineCore
  rcases firstSuccessTrace (fun m => f state district m commodity) markets with ⟨tr1, _ | md⟩
  · dsimp only
    generalize firstSuccessTrace
        (fun p => f state p.1 (some p.2) commodity)
        ((get_alternate_markets state).filter
          (fun p => !(p.1 == district && markets.contains (some p.2)))) = q
    rcases q with ⟨tr2, _ | dm⟩
    · exact finalize_error_iff state district commodity none []
    · exact finalize_error_iff state dm.1.1 commodity (some (some dm.1.2)) dm.2
  · exact finalize_error_iff state district commodity (some md.1) md.2

/-- **C2 (corrected).**  The engine's `error` field is present exactly when
the latest-prices field is empty — for every environment, adapter behaviour
and input.  This is *not* the same as "exactly when the record set is
empty": when the scraped records contain a non-numeric price field,
`get_latest_prices` raises after `data_points` has been set, so `error` is
present together with a positive record count (see the counterexample). -/
theorem get_commodity_price_error_iff_latest_empty (env : EngineEnv) (lat lon : ℚ)
    (commodity : String) :
    ((get_commodity_price env lat lon commodity).error.isSome = true ↔
      (get_commodity_price env lat lon commodity).latest_prices = none) := by
  unfold get_commodity_price get_commodity_price_traced
  exact engineCore_error_iff _ _ _ _ _

/-- Witness for `get_commodity_price_error_iff_latest_empty` at a concrete
environment (both reference files absent, adapter always failing). -/
def envAllFail : EngineEnv :=
  ⟨distLat, .absent, .absent, fun _ _ _ _ => .error "network down"⟩

theorem get_commodity_price_error_iff_latest_empty_witness :
    ((get_commodity_price envAllFail 0 0 "Rice").error.isSome = true ↔
      (get_commodity_price envAllFail 0 0 "Rice").latest_prices = none) :=
  get_commodity_price_error_iff_latest_empty envAllFail 0 0 "Rice"

/-- A record whose `Min Price` cannot be parsed as a float. -/
def recBadPrice : Record :=
  [("Variety", "A"), ("Price Date", "01 Jan 2024"), ("Min Price", "abc"),
   ("Max Price", "20"), ("Modal Price", "15"), ("Market Name", "Ludhiana")]

def envBadPrice : EngineEnv :=
  ⟨distLat, .absent, .absent, fun _ _ _ _ => .ok [recBadPrice]⟩

/-- **C2, counterexample.**  The adapter returns one record whose
`Min Price` is `"abc"`: `float(...)` raises, the outer `except` sets
`error`, and the result carries `error` together with `data_points = 1` —
so `error` is *not* present only when the record set is empty. -/
theorem get_commodity_price_error_with_records_counterexample :
    (get_commodity_price envBadPrice 0 0 "Rice").error.isSome = true ∧
    (get_commodity_price envBadPrice 0 0 "Rice").data_points = 1 ∧
    (get_commodity_price envBadPrice 0 0 "Rice").latest_prices = none := by
  refine ⟨by decide, by decide, by decide⟩

/-- A fetch attempt that falls through to the next candidate: an empty
record list or a raised exception (lines 799-807). -/
def fetchFails (r : Except String (List Record)) : Prop :=
  r = .ok [] ∨ ∃ e, r = .error e

theorem firstSuccessTrace_spec {α : Type} (f : α → Except String (List Record))
    (l₁ l₂ : List α) (c : α) (d : List Record)
    (h₁ : ∀ x ∈ l₁, fetchFails (f x)) (hc : f c = .ok d) (hd : d ≠ []) :
    firstSuccessTrace f (l₁ ++ c :: l₂) = (l₁ ++ [c], some (c, d)) := by
  induction l₁ with
  | nil =>
    have hde : d.isEmpty = false := by
      cases d with
      | nil => exact absurd rfl hd
      | cons a l => rfl
    simp [firstSuccessTrace, hc, hde]
  | cons x rest ih =>
    have hrest : ∀ y ∈ rest, fetchFails (f y) :=
      fun y hy => h₁ y (List.mem_cons_of_mem _ hy)
    have ihr := ih hrest
    rcases h₁ x (by simp) with hok | ⟨e, herr⟩
    · simp [firstSuccessTrace, hok, ihr]
    · simp [firstSuccessTrace, herr, ihr]

/-- A markets database whose rows all carry the given state and district,
with the given market names. -/
def mkMarketDb (state district : String) (ms : List (Option String)) :
    List MarketEntry :=
  ms.map (fun m => ⟨some state, some district, m⟩)

theorem get_markets_in_district_mkMarketDb (s d : String)
    (ms : List (Option String)) (h : ms ≠ []) :
    get_markets_in_district (.loaded (mkMarketDb s d ms)) s d = ms := by
  unfold get_markets_in_district mkMarketDb
  have hfil : (ms.map (fun m => (⟨some s, some d, m⟩ : MarketEntry))).filter
      (fun e => e.state == some s && e.district == some d)
      = ms.map (fun m => ⟨some s, some d, m⟩) := by
    apply List.filter_eq_self.mpr
    intro e he
    obtain ⟨m, _, rfl⟩ := List.mem_map.1 he
    simp
  simp only [hfil, List.map_map]
  have hid : ((fun e => MarketEntry.market e) ∘ fun m => (⟨some s, some d, m⟩ : MarketEntry))
      = id := rfl
  rw [hid, List.map_id]
  have hne : ms.isEmpty = false := by
    cases ms with
    | nil => exact absurd rfl h
    | cons a l => rfl
  simp [hne]

/-- If the successful market name is truthy and data was found, `finalize`
reports that market in the result. -/
theorem finalize_market (state district commodity : String) (m : Option String)
    (data : List Record) (hm : pyTruthy m = true) (hd : data ≠ []) :
    (finalize state district commodity (some m) data).market = m := by
  unfold finalize
  have h2 : data.isEmpty = false := by
    cases data with
    | nil => exact absurd rfl hd
    | cons a l => rfl
  rcases hglp : get_latest_prices data none with msg | lp <;>
    simp [hm, h2, hglp]

/-- Environment for the short-circuit theorem: no districts file (so the
resolver yields the Punjab/Ludhiana default) and a markets file whose
Punjab/Ludhiana rows list exactly the given candidate markets. -/
def mkC1Env (distFn : ℚ × ℚ → ℚ × ℚ → ℚ) (fetch : FetchFn)
    (ms : List (Option String)) : EngineEnv :=
  ⟨distFn, .absent, .loaded (mkMarketDb "Punjab" "Ludhiana" ms), fetch⟩

/-- **C1 (corrected).**  For every adapter behaviour and every ordered
candidate market list `l₁ ++ c :: l₂` in which each market of `l₁` fails or
returns no records and `c` returns the non-empty record list `d`: the
engine's fetch trace is exactly `l₁ ++ [c]` — it never invokes the adapter
for any market after `c`, nor for any alternate market — and, *provided*
the successful candidate's market name is truthy (non-null, non-empty), that
market becomes the `market` of the returned result.  For a falsy market name
the engine still stops fetching but reports the no-data error (see the
counterexample). -/
theorem engine_stops_at_first_success (distFn : ℚ × ℚ → ℚ × ℚ → ℚ) (fetch : FetchFn)
    (lat lon : ℚ) (commodity : String) (l₁ l₂ : List (Option String))
    (c : Option String) (d : List Record)
    (h₁ : ∀ m ∈ l₁, fetchFails (fetch "Punjab" "Ludhiana" m commodity))
    (hc : fetch "Punjab" "Ludhiana" c commodity = .ok d) (hd : d ≠ []) :
    (get_commodity_price_traced (mkC1Env distFn fetch (l₁ ++ c :: l₂)) lat lon commodity).2
      = (l₁ ++ [c]).map (fun m => ("Punjab", "Ludhiana", m)) ∧
    (pyTruthy c = true →
      (get_commodity_price_traced (mkC1Env distFn fetch (l₁ ++ c :: l₂))
          lat lon commodity).1.market = c) := by
  have hms : l₁ ++ c :: l₂ ≠ [] := by simp
  have hmkts : get_markets_in_district
      (.loaded (mkMarketDb "Punjab" "Ludhiana" (l₁ ++ c :: l₂))) "Punjab" "Ludhiana"
      = l₁ ++ c :: l₂ :=
    get_markets_in_district_mkMarketDb _ _ _ hms
  have hmne : (l₁ ++ c :: l₂).isEmpty = false := by
    cases hl : l₁ ++ c :: l₂ with
    | nil => exact absurd hl hms
    | cons a l => rfl
  have hfst := firstSuccessTrace_spec
    (fun m => fetch "Punjab" "Ludhiana" m commodity) l₁ l₂ c d h₁ hc hd
  have heng : get_commodity_price_traced (mkC1Env distFn fetch (l₁ ++ c :: l₂))
      lat lon commodity
      = (finalize "Punjab" "Ludhiana" commodity (some c) d,
         (l₁ ++ [c]).map (fun m => ("Punjab", "Ludhiana", m))) := by
    unfold get_commodity_price_traced mkC1Env
    simp only [find_nearest_location, hmkts, hmne, Bool.false_eq_true, if_false]
    unfold engineCore
    rw [hfst]
  constructor
  · rw [heng]
  · intro htr
    rw [heng]
    exact finalize_market "Punjab" "Ludhiana" commodity c d htr hd

/-- Adapter used in the short-circuit witness: only market `"B"` has data. -/
def fetchW : FetchFn :=
  fun _ _ m _ => if m == some "B" then .ok [recGoodDate] else .ok []

/-- Witness for `engine_stops_at_first_success`: with candidates
`A, B, Cc` where only `B` has data, the trace is exactly `A, B` and the
result's market is `B`. -/
theorem engine_stops_at_first_success_witness :
    (get_commodity_price_traced (mkC1Env distLat fetchW ([some "A"] ++ some "B" :: [some "Cc"]))
        0 0 "Rice").2
      = ([some "A"] ++ [some "B"]).map (fun m => ("Punjab", "Ludhiana", m)) ∧
    (pyTruthy (some "B") = true →
      (get_commodity_price_traced (mkC1Env distLat fetchW ([some "A"] ++ some "B" :: [some "Cc"]))
          0 0 "Rice").1.market = some "B") :=
  engine_stops_at_first_success distLat fetchW 0 0 "Rice" [some "A"] [some "Cc"]
    (some "B") [recGoodDate]
    (by
      intro m hm
      have : m = some "A" := by simpa using hm
      subst this
      exact Or.inl rfl)
    rfl (by decide)

/-- Adapter for the counterexample: the empty-named market has data. -/
def fetchEmptyName : FetchFn :=
  fun _ _ m _ => if m == some "" then .ok [recGoodDate] else .ok []

def envEmptyName : EngineEnv := mkC1Env distLat fetchEmptyName [some ""]

/-- **C1, counterexample.**  The single candidate market is the empty string
and its fetch returns a record.  The engine stops there (the trace shows
exactly one fetch), but because `if successful_market and market_data:`
treats `""` as falsy, the returned result's market is `None` — not the
successful candidate's market — and the no-data error is reported instead. -/
theorem engine_empty_market_name_counterexample :
    (get_commodity_price_traced envEmptyName 0 0 "Rice").2
      = [("Punjab", "Ludhiana", some "")] ∧
    (get_commodity_price envEmptyName 0 0 "Rice").market = none ∧
    ¬ (get_commodity_price envEmptyName 0 0 "Rice").market = some "" ∧
    (get_commodity_price envEmptyName 0 0 "Rice").error.isSome = true := by
  refine ⟨by decide, by decide, by decide, by decide⟩

/-! ### Browser-session lifecycle of `scrape_commodity` (lines 195-633)

`scrape_commodity` acquires one Chrome driver (line 255), runs a sequence of
page interactions inside `try: ... finally: driver.quit()` (line 632), and —
crucially — also calls `driver.quit()` explicitly inside the `except`
branches of the dropdown-selection stages (lines 275, 293, 311, 362, 414),
the date-entry stage (line 459) and the go-button stage (line 522), right
before re-raising.  The table stages (lines 573, 598, 631) raise without an
explicit quit.  The model reduces each interaction stage to a success flag
(its internal retries only matter through this overall outcome), gives the
parsed table as data, and counts the `driver.quit()` calls on the taken
path. -/

/-- Outcome of each interaction stage of one `scrape_commodity` run.
`tableResult = some recs` means a result table was found and parsed to
`recs` (possibly zero data rows); `none` means no recognizable table / a
table-processing failure. -/
structure ScrapeOutcome where
  priceArrivalOk : Bool
  commodityOk : Bool
  stateOk : Bool
  districtOk : Bool
  marketOk : Bool
  datesOk : Bool
  goOk : Bool
  tableResult : Option (List Record)
deriving DecidableEq

/-- The `try` body: result of the run plus the number of *explicit*
`driver.quit()` calls executed inside it. -/
def scrapeBody (o : ScrapeOutcome) : Except String (List Record) × ℕ :=
  if !o.priceArrivalOk then (.error "Price/Arrival option not found in dropdown.", 1)
  else if !o.commodityOk then (.error "Commodity not found in dropdown.", 1)
  else if !o.stateOk then (.error "State not found in dropdown.", 1)
  else if !o.districtOk then (.error "District not found in dropdown after waiting", 1)
  else if !o.marketOk then (.error "Market selection failed", 1)
  else if !o.datesOk then (.error "Date input fields not found.", 1)
  else if !o.goOk then (.error "Go button click failed after 5 attempts", 1)
  else match o.tableResult with
    | some recs => (.ok recs, 0)
    | none => (.error "Error processing table data", 0)

/-- `scrape_commodity`: the body runs, then the `finally` block always calls
`driver.quit()` once more.  The second component is the total number of
`driver.quit()` calls on that run. -/
def scrape_commodity (o : ScrapeOutcome) : Except String (List Record) × ℕ :=
  ((scrapeBody o).1, (scrapeBody o).2 + 1)

def outcomeBadDropdown : ScrapeOutcome :=
  ⟨false, true, true, true, true, true, true, some []⟩

/-- **C8, counterexample.**  When the Price/Arrival dropdown selection fails,
the `except` branch calls `driver.quit()` and raises, and the `finally`
block calls `driver.quit()` again: the session is released twice on that
exit path, not exactly once. -/
theorem scrape_commodity_double_release_counterexample :
    (scrape_commodity outcomeBadDropdown).2 = 2 ∧
    ¬ (scrape_commodity outcomeBadDropdown).2 = 1 := by
  refine ⟨by decide, by decide⟩

/-- **C8 (corrected).**  On every exit path the session is released at least
once (the `finally` guarantees it — never leaked) and at most twice; on the
successful path and on the table-stage failure paths it is released exactly
once, but on the dropdown/date/go-button failure paths the explicit
`driver.quit()` before the raise plus the `finally` release it twice. -/
theorem scrape_commodity_release_bounds (o : ScrapeOutcome) :
    (1 ≤ (scrape_commodity o).2 ∧ (scrape_commodity o).2 ≤ 2) ∧
    ((scrape_commodity o).1.isOk = true → (scrape_commodity o).2 = 1) := by
  unfold scrape_commodity scrapeBody
  split_ifs <;> rcases o.tableResult with _ | recs <;>
    simp [Except.isOk, Except.toBool]

def outcomeSuccess : ScrapeOutcome :=
  ⟨true, true, true, true, true, true, true, some [recGoodDate]⟩

/-- Witness for `scrape_commodity_release_bounds` on a fully successful run:
exactly one release. -/
theorem scrape_commodity_release_bounds_witness :
    (1 ≤ (scrape_commodity outcomeSuccess).2 ∧ (scrape_commodity outcomeSuccess).2 ≤ 2) ∧
    ((scrape_commodity outcomeSuccess).1.isOk = true →
      (scrape_commodity outcomeSuccess).2 = 1) :=
  scrape_commodity_release_bounds outcomeSuccess

/-! ### Seasonal info and the multi-commodity entry point
(`get_crop_seasons`, lines 875-930, and `get_all_commodity_prices`,
lines 932-972) -/

structure SeasonalInfo where
  growing_season : String
  harvesting_period : String
  expected_next_harvest : String
deriving DecidableEq, Repr

/-- `get_crop_seasons` (lines 875-930): static table keyed by the lowercased
crop name; `none` models the empty dictionary returned for unknown crops. -/
def get_crop_seasons (commodity : String) : Option SeasonalInfo :=
  let c := commodity.data.map lowerChar
  if c = "rice".data then
    some ⟨"Kharif (June-July to October-November)", "September-December",
          "October-November"⟩
  else if c = "wheat".data then
    some ⟨"Rabi (October-December to March-April)", "February-May", "March-April"⟩
  else if c = "maize".data then
    some ⟨"Both Kharif and Rabi seasons",
          "September-October (Kharif), February-March (Rabi)", "Varies by region"⟩
  else if c = "potato".data then
    some ⟨"Rabi (October-November to February-March)", "January-March",
          "January-February"⟩
  else if c = "onion".data then
    some ⟨"Kharif, late Kharif, and Rabi", "Year-round in different regions",
          "Varies by region"⟩
  else if c = "tomato".data then
    some ⟨"Year-round in different regions", "Varies by region", "Varies by region"⟩
  else if c = "apple".data then
    some ⟨"Spring (March-April)", "July-October", "August-September"⟩
  else if c = "strawberry".data then
    some ⟨"October-November", "January-March", "January-February"⟩
  else none

/-- One value of the mapping built by `get_all_commodity_prices`: either the
engine's result dictionary (with `seasonal_info` attached when the crop is
known, lines 960-963), or the error entry built in the `except` branch
(lines 966-970). -/
inductive CommodityEntry
  | ok (r : PriceResult) (seasonal : Option SeasonalInfo)
  | failed (msg : String) (seasonal : Option SeasonalInfo)
deriving DecidableEq

/-- Rewrite the value stored at key `k` (every binding of `k`, keeping
positions — a Python dict has at most one). -/
def replaceKey {β : Type} (k : String) (v : β) : List (String × β) → List (String × β)
  | [] => []
  | (a, b) :: rest => (if a = k then (k, v) else (a, b)) :: replaceKey k v rest

/-- Assignment into a Python dict: overwrite in place when the key exists,
append otherwise (insertion order preserved). -/
def dictInsert {β : Type} (d : List (String × β)) (k : String) (v : β) :
    List (String × β) :=
  if d.any (fun p => p.1 == k) then replaceKey k v d else d ++ [(k, v)]

/-- The entry stored for one commodity, given what the per-commodity engine
call does (`.error` models an exception escaping `get_commodity_price`). -/
def entryFor (runOne : String → Except String PriceResult) (c : String) :
    CommodityEntry :=
  match runOne c with
  | .ok r => .ok r (get_crop_seasons c)
  | .error e => .failed e (get_crop_seasons c)

/-- `get_all_commodity_prices` (lines 932-972), parametrised by the
per-commodity computation so that the `except` branch is reachable: default
the commodity list to `["Rice", "Wheat"]` when empty, then fill the result
dict one commodity at a time, at each step catching any exception and
storing an error entry with the crop's seasonal info instead. -/
def get_all_commodity_prices (runOne : String → Except String PriceResult)
    (commodities : List String) : List (String × CommodityEntry) :=
  (if commodities.isEmpty then ["Rice", "Wheat"] else commodities).foldl
    (fun acc c => dictInsert acc c (entryFor runOne c)) []

/-- The instantiation actually running in the code: `get_commodity_price`
never lets an exception escape in the model, so every call is `.ok`. -/
def get_all_commodity_prices_run (env : EngineEnv) (lat lon : ℚ)
    (commodities : List String) : List (String × CommodityEntry) :=
  get_all_commodity_prices (fun c => .ok (get_commodity_price env lat lon c))
    commodities

theorem lookup_replaceKey_ne {β : Type} (d : List (String × β)) (k k' : String)
    (v : β) (h : k' ≠ k) :
    List.lookup k' (replaceKey k v d) = List.lookup k' d := by
  induction d with
  | nil => rfl
  | cons a rest ih =>
    obtain ⟨ak, av⟩ := a
    by_cases ha : ak = k
    · rw [replaceKey, if_pos ha]
      have h1 : (k' == k) = false := beq_eq_false_iff_ne.2 h
      have h2 : (k' == ak) = false := beq_eq_false_iff_ne.2 (ha ▸ h)
      simp [List.lookup, h1, h2, ih]
    · rw [replaceKey, if_neg ha]
      by_cases hk' : k' = ak
      · simp [List.lookup, hk']
      · have h2 : (k' == ak) = false := beq_eq_false_iff_ne.2 hk'
        simp [List.lookup, h2, ih]

theorem lookup_replaceKey_eq {β : Type} (d : List (String × β)) (k : String)
    (v : β) (h : d.any (fun p => p.1 == k) = true) :
    List.lookup k (replaceKey k v d) = some v := by
  induction d with
  | nil => simp at h
  | cons a rest ih =>
    obtain ⟨ak, av⟩ := a
    by_cases ha : ak = k
    · rw [replaceKey, if_pos ha]
      simp [List.lookup]
    · rw [replaceKey, if_neg ha]
      have h2 : (k == ak) = false := beq_eq_false_iff_ne.2 (fun hk => ha hk.symm)
      have h3 : rest.any (fun p => p.1 == k) = true := by
        have h1 : (ak == k) = false := beq_eq_false_iff_ne.2 ha
        simpa [List.any_cons, h1] using h
      simp [List.lookup, h2, ih h3]

theorem lookup_append_sandwich {β : Type} (d : List (String × β)) (k k' : String)
    (v : β) :
    List.lookup k' (d ++ [(k, v)])
      = match List.lookup k' d with
        | some w => some w
        | none => if k' = k then some v else none := by
  induction d with
  | nil =>
    by_cases hk : k' = k
    · simp [List.lookup, hk]
    · have h1 : (k' == k) = false := beq_eq_false_iff_ne.2 hk
      simp [List.lookup, h1, hk]
  | cons a rest ih =>
    obtain ⟨ak, av⟩ := a
    by_cases hk : k' = ak
    · simp [List.lookup, hk]
    · have h1 : (k' == ak) = false := beq_eq_false_iff_ne.2 hk
      simp [List.lookup, h1, ih]

theorem lookup_none_of_not_any {β : Type} (d : List (String × β)) (k : String)
    (h : d.any (fun p => p.1 == k) = false) : List.lookup k d = none := by
  induction d with
  | nil => rfl
  | cons a rest ih =>
    obtain ⟨ak, av⟩ := a
    have h1 : (ak == k) = false := by
      have := List.any_eq_false.1 h (ak, av) (by simp)
      simpa using this
    have h2 : (k == ak) = false := by
      have hne : ¬ ak = k := by simpa using h1
      exact beq_eq_false_iff_ne.2 (fun hk => hne hk.symm)
    have h3 : rest.any (fun p => p.1 == k) = false :=
      List.any_eq_false.2 (fun p hp => (List.any_eq_false.1 h) p (by simp [hp]))
    simp [List.lookup, h2, ih h3]

theorem lookup_dictInsert {β : Type} (d : List (String × β)) (k k' : String)
    (v : β) :
    List.lookup k' (dictInsert d k v)
      = if k' = k then some v else List.lookup k' d := by
  unfold dictInsert
  by_cases hany : d.any (fun p => p.1 == k) = true
  · rw [if_pos hany]
    by_cases hk : k' = k
    · subst hk
      simp [lookup_replaceKey_eq d k' v hany]
    · simp [lookup_replaceKey_ne d k k' v hk, hk]
  · rw [if_neg hany]
    rw [lookup_append_sandwich]
    by_cases hk : k' = k
    · subst hk
      rw [lookup_none_of_not_any d k' (Bool.eq_false_iff.2 hany)]
    · rcases hl : List.lookup k' d with _ | w
      · simp [hk]
      · simp [hk]

theorem lookup_get_all_aux (runOne : String → Except String PriceResult)
    (cs : List String) :
    ∀ (acc : List (String × CommodityEntry)) (k : String),
    List.lookup k (cs.foldl (fun a c => dictInsert a c (entryFor runOne c)) acc)
      = if k ∈ cs then some (entryFor runOne k) else List.lookup k acc := by
  induction cs with
  | nil => intro acc k; simp
  | cons c rest ih =>
    intro acc k
    simp only [List.foldl_cons]
    rw [ih]
    by_cases hk : k ∈ rest
    · simp [hk]
    · rw [lookup_dictInsert]
      by_cases hkc : k = c
      · subst hkc
        simp [hk]
      · simp [hk, hkc]

/-- **C10 (confirmed, implicit).**  For every per-commodity behaviour
(exceptions included) and every commodity list, the mapping returned by
`get_all_commodity_prices` has an entry exactly for the requested
commodities — defaulting to `["Rice", "Wheat"]` when the list is empty —
and a commodity whose processing raises gets the error entry with its
seasonal info, independently of (and without preventing) every other
commodity's entry. -/
theorem get_all_commodity_prices_spec (runOne : String → Except String PriceResult)
    (commodities : List String) :
    (∀ k, (List.lookup k (get_all_commodity_prices runOne commodities)).isSome = true ↔
        k ∈ (if commodities.isEmpty then ["Rice", "Wheat"] else commodities)) ∧
    (∀ c ∈ (if commodities.isEmpty then ["Rice", "Wheat"] else commodities),
      ∀ e, runOne c = .error e →
        List.lookup c (get_all_commodity_prices runOne commodities)
          = some (.failed e (get_crop_seasons c))) ∧
    (∀ c ∈ (if commodities.isEmpty then ["Rice", "Wheat"] else commodities),
      ∀ r, runOne c = .ok r →
        List.lookup c (get_all_commodity_prices runOne commodities)
          = some (.ok r (get_crop_seasons c))) := by
  have key : ∀ k, List.lookup k (get_all_commodity_prices runOne commodities)
      = if k ∈ (if commodities.isEmpty then ["Rice", "Wheat"] else commodities)
        then some (entryFor runOne k) else none := by
    intro k
    unfold get_all_commodity_prices
    rw [lookup_get_all_aux]
    rfl
  refine ⟨?_, ?_, ?_⟩
  · intro k
    rw [key k]
    by_cases h : k ∈ (if commodities.isEmpty then ["Rice", "Wheat"] else commodities) <;>
      simp [h]
  · intro c hc e he
    rw [key c, if_pos hc]
    unfold entryFor
    rw [he]
  · intro c hc r hr
    rw [key c, if_pos hc]
    unfold entryFor
    rw [hr]

/-- Per-commodity behaviour for the witness: `"Rice"` raises, everything
else succeeds with an empty default result. -/
def runOneW : String → Except String PriceResult :=
  fun c => if c = "Rice" then .error "boom"
           else .ok ⟨some "Punjab", some "Ludhiana", none, none, 0, none⟩

/-- Witness for `get_all_commodity_prices_spec`: with commodities
`["Rice", "Wheat"]` where `"Rice"` raises, `"Rice"` gets the error entry
with its seasonal info while `"Wheat"` still has an entry. -/
theorem get_all_commodity_prices_spec_witness :
    List.lookup "Rice" (get_all_commodity_prices runOneW ["Rice", "Wheat"])
      = some (.failed "boom" (get_crop_seasons "Rice")) ∧
    (List.lookup "Wheat" (get_all_commodity_prices runOneW ["Rice", "Wheat"])).isSome
      = true :=
  ⟨(get_all_commodity_prices_spec runOneW ["Rice", "Wheat"]).2.1 "Rice"
      (by decide) "boom" rfl,
   ((get_all_commodity_prices_spec runOneW ["Rice", "Wheat"]).1 "Wheat").2
      (by decide)⟩
